import Mathlib

/-!
Verification of the Form 15CB master-data resolution and XML serialization
core (`modules/master_data.py`, `modules/xml_generator.py`,
`modules/xml_parser.py`).  Python strings are embedded as `List Char`
(ASCII semantics for case mapping, whitespace and digit classes), Python
dicts as association lists or as functions into `Option`, and fallible
operations as sum-like result types.
-/

set_option maxRecDepth 8000

namespace Form15CB

abbrev Str := List Char

/-- Python whitespace class (`str.strip` / regex `\s`), ASCII part:
space, tab, newline, carriage return, vertical tab, form feed. -/
def pyIsSpace (c : Char) : Bool :=
  decide (c.toNat = 32 ∨ c.toNat = 9 ∨ c.toNat = 10 ∨ c.toNat = 13 ∨
          c.toNat = 11 ∨ c.toNat = 12)

/-- ASCII `str.lower` on one character. -/
def pyLowerChar (c : Char) : Char :=
  if 65 ≤ c.toNat ∧ c.toNat ≤ 90 then Char.ofNat (c.toNat + 32) else c

/-- ASCII `str.upper` on one character. -/
def pyUpperChar (c : Char) : Char :=
  if 97 ≤ c.toNat ∧ c.toNat ≤ 122 then Char.ofNat (c.toNat - 32) else c

def pyLowerStr (s : Str) : Str := s.map pyLowerChar

def pyUpperStr (s : Str) : Str := s.map pyUpperChar

/-- Drop the longest suffix whose characters satisfy `p`. -/
def dropTrailingWhile (p : Char → Bool) (l : Str) : Str :=
  ((l.reverse).dropWhile p).reverse

/-- Python `str.strip()`: remove leading and trailing whitespace. -/
def pyStrip (s : Str) : Str :=
  dropTrailingWhile pyIsSpace (s.dropWhile pyIsSpace)

/-- Character class kept by the regex substitution
`re.sub(r"[^a-z0-9\s]", " ", s)` in `normalize`
(`modules/master_data.py:14`). -/
def keepClass (c : Char) : Bool :=
  decide (97 ≤ c.toNat ∧ c.toNat ≤ 122) ||
  decide (48 ≤ c.toNat ∧ c.toNat ≤ 57) ||
  pyIsSpace c

/-- `re.sub(r"[^a-z0-9\s]", " ", s)`: replace every character outside the
class by a single space. -/
def replaceNonClass (s : Str) : Str :=
  s.map (fun c => if keepClass c then c else ' ')

/-- `re.sub(r"\s+", " ", s)`: replace every maximal run of whitespace by a
single space.  The boolean flag records whether the previous character
belonged to a whitespace run. -/
def collapseAux : Bool → Str → Str
  | _, [] => []
  | prevSpace, c :: rest =>
    if pyIsSpace c then
      if prevSpace then collapseAux true rest
      else ' ' :: collapseAux true rest
    else c :: collapseAux false rest

/-- `normalize` from `modules/master_data.py:10-16`: on a non-empty string,
lower-case, strip, replace characters outside `[a-z0-9\s]` by a space and
collapse whitespace runs to one space.  There is no final strip. -/
def normalize (s : Str) : Str :=
  if s = [] then []
  else collapseAux false (replaceNonClass (pyStrip (pyLowerStr s)))

/-- `normalize` applied to `Optional[str]`: `None` behaves like the empty
string (`if not text: return ""`). -/
def normalizeOpt : Option Str → Str
  | none => []
  | some s => normalize s

/-- The normalization pipeline as worded by the spec (§4.1): lower-case,
strip, replace characters outside the class with a space, collapse
consecutive whitespace to one space, and finally trim. -/
def specNormalize (s : Str) : Str :=
  pyStrip (collapseAux false (replaceNonClass (pyStrip (pyLowerStr s))))

/-- Characters that can occur in the output of `normalize`: lowercase ASCII
letters, ASCII digits, or the plain space. -/
def GoodChar (c : Char) : Prop :=
  (97 ≤ c.toNat ∧ c.toNat ≤ 122) ∨ (48 ≤ c.toNat ∧ c.toNat ≤ 57) ∨ c = ' '

/-- No two adjacent characters of the list are both the plain space. -/
def NoAdjSpace (l : Str) : Prop :=
  List.Chain' (fun a b => ¬(a = ' ' ∧ b = ' ')) l

lemma pyIsSpace_iff (c : Char) :
    pyIsSpace c = true ↔
      (c.toNat = 32 ∨ c.toNat = 9 ∨ c.toNat = 10 ∨ c.toNat = 13 ∨
       c.toNat = 11 ∨ c.toNat = 12) := by
  simp [pyIsSpace]

lemma good_of_keep_not_space {c : Char} (hk : keepClass c = true)
    (hs : pyIsSpace c = false) : GoodChar c := by
  simp only [keepClass, Bool.or_eq_true, decide_eq_true_eq] at hk
  rcases hk with (h | h) | h
  · exact Or.inl h
  · exact Or.inr (Or.inl h)
  · rw [hs] at h; cases h

lemma good_space_eq {c : Char} (hg : GoodChar c) (hs : pyIsSpace c = true) :
    c = ' ' := by
  rcases hg with h | h | h
  · rw [pyIsSpace_iff] at hs; omega
  · rw [pyIsSpace_iff] at hs; omega
  · exact h

lemma good_keep {c : Char} (hg : GoodChar c) : keepClass c = true := by
  simp only [keepClass, Bool.or_eq_true, decide_eq_true_eq]
  rcases hg with h | h | h
  · exact Or.inl (Or.inl h)
  · exact Or.inl (Or.inr h)
  · subst h; exact Or.inr (by decide)

lemma good_not_space {c : Char} (hg : GoodChar c) (hne : c ≠ ' ') :
    pyIsSpace c = false := by
  cases h : pyIsSpace c
  · rfl
  · exact absurd (good_space_eq hg h) hne

lemma collapseAux_head_true :
    ∀ (s : Str) (c : Char), (collapseAux true s).head? = some c →
      pyIsSpace c = false := by
  intro s
  induction s with
  | nil => intro c h; simp [collapseAux] at h
  | cons a t ih =>
    intro c h
    by_cases ha : pyIsSpace a = true
    · rw [collapseAux, if_pos ha, if_pos rfl] at h
      exact ih c h
    · rw [collapseAux, if_neg ha] at h
      simp only [List.head?_cons, Option.some_inj] at h
      subst h
      exact Bool.not_eq_true _ ▸ (by simpa using ha)

lemma collapseAux_chain : ∀ (s : Str) (b : Bool), NoAdjSpace (collapseAux b s) := by
  intro s
  induction s with
  | nil => intro b; simp [collapseAux, NoAdjSpace]
  | cons a t ih =>
    intro b
    by_cases ha : pyIsSpace a = true
    · cases b with
      | true => rw [collapseAux, if_pos ha, if_pos rfl]; exact ih true
      | false =>
        rw [collapseAux, if_pos ha, if_neg (by simp)]
        refine List.chain'_cons'.mpr ⟨?_, ih true⟩
        intro d hd hcontra
        have := collapseAux_head_true t d hd
        rw [hcontra.2] at this
        simp [pyIsSpace] at this
    · rw [collapseAux, if_neg ha]
      refine List.chain'_cons'.mpr ⟨?_, ih false⟩
      intro d _ hcontra
      rw [hcontra.1] at ha
      simp [pyIsSpace] at ha

lemma collapseAux_mem :
    ∀ (s : Str) (b : Bool) (c : Char), c ∈ collapseAux b s →
      c = ' ' ∨ (c ∈ s ∧ pyIsSpace c = false) := by
  intro s
  induction s with
  | nil => intro b c h; simp [collapseAux] at h
  | cons a t ih =>
    intro b c h
    by_cases ha : pyIsSpace a = true
    · cases b with
      | true =>
        rw [collapseAux, if_pos ha, if_pos rfl] at h
        rcases ih true c h with h' | ⟨hm, hs⟩
        · exact Or.inl h'
        · exact Or.inr ⟨List.mem_cons_of_mem _ hm, hs⟩
      | false =>
        rw [collapseAux, if_pos ha, if_neg (by simp)] at h
        rcases List.mem_cons.mp h with h' | h'
        · exact Or.inl h'
        · rcases ih true c h' with h'' | ⟨hm, hs⟩
          · exact Or.inl h''
          · exact Or.inr ⟨List.mem_cons_of_mem _ hm, hs⟩
    · rw [collapseAux, if_neg ha] at h
      rcases List.mem_cons.mp h with h' | h'
      · subst h'; exact Or.inr ⟨List.mem_cons_self _ _, by simpa using ha⟩
      · rcases ih false c h' with h'' | ⟨hm, hs⟩
        · exact Or.inl h''
        · exact Or.inr ⟨List.mem_cons_of_mem _ hm, hs⟩

lemma replaceNonClass_mem {s : Str} {c : Char} (h : c ∈ replaceNonClass s) :
    keepClass c = true := by
  simp only [replaceNonClass, List.mem_map] at h
  obtain ⟨d, _, hd⟩ := h
  by_cases hk : keepClass d = true
  · rw [if_pos hk] at hd; subst hd; exact hk
  · rw [if_neg hk] at hd; subst hd; decide

lemma normalize_good {s : Str} : ∀ c ∈ normalize s, GoodChar c := by
  intro c hc
  rw [normalize] at hc
  split at hc
  · simp at hc
  · rcases collapseAux_mem _ false c hc with h | ⟨hm, hs⟩
    · exact Or.inr (Or.inr h)
    · exact good_of_keep_not_space (replaceNonClass_mem hm) hs

lemma normalize_chain (s : Str) : NoAdjSpace (normalize s) := by
  rw [normalize]
  split
  · simp [NoAdjSpace]
  · exact collapseAux_chain _ false

lemma dropWhile_isSuffix (p : Char → Bool) :
    ∀ l : Str, l.dropWhile p <:+ l := by
  intro l
  induction l with
  | nil => exact List.suffix_refl _
  | cons a t ih =>
    by_cases ha : p a = true
    · rw [List.dropWhile_cons, if_pos ha]
      exact ih.trans (List.suffix_cons a t)
    · rw [List.dropWhile_cons, if_neg ha]

lemma dropTrailing_isPrefix (p : Char → Bool) (t : Str) :
    dropTrailingWhile p t <+: t := by
  rw [dropTrailingWhile]
  apply List.reverse_suffix.mp
  rw [List.reverse_reverse]
  exact dropWhile_isSuffix p t.reverse

lemma pyStrip_mem {l : Str} {c : Char} (h : c ∈ pyStrip l) : c ∈ l := by
  rw [pyStrip] at h
  have h1 : c ∈ l.dropWhile pyIsSpace :=
    (dropTrailing_isPrefix pyIsSpace _).sublist.mem h
  exact (dropWhile_isSuffix pyIsSpace l).sublist.mem h1

lemma pyStrip_chain {l : Str} (h : NoAdjSpace l) : NoAdjSpace (pyStrip l) := by
  rw [pyStrip, NoAdjSpace]
  exact List.Chain'.prefix
    (List.Chain'.suffix h (dropWhile_isSuffix pyIsSpace l))
    (dropTrailing_isPrefix pyIsSpace _)

lemma head?_dropWhile (p : Char → Bool) :
    ∀ (l : Str) (c : Char), (l.dropWhile p).head? = some c → p c = false := by
  intro l
  induction l with
  | nil => intro c h; simp at h
  | cons a t ih =>
    intro c h
    by_cases ha : p a = true
    · rw [List.dropWhile_cons, if_pos ha] at h; exact ih c h
    · rw [List.dropWhile_cons, if_neg ha] at h
      simp only [List.head?_cons, Option.some_inj] at h
      subst h
      simpa using ha

/-- The result of `pyStrip` has no leading and no trailing whitespace. -/
lemma pyStrip_trimmed (l : Str) :
    (∀ c, (pyStrip l).head? = some c → pyIsSpace c = false) ∧
    (∀ c, (pyStrip l).getLast? = some c → pyIsSpace c = false) := by
  constructor
  · intro c h
    have hpre := dropTrailing_isPrefix pyIsSpace (l.dropWhile pyIsSpace)
    obtain ⟨r, hr⟩ := hpre
    have hne : pyStrip l ≠ [] := by
      intro hnil; rw [pyStrip] at h; rw [pyStrip] at hnil; rw [hnil] at h; simp at h
    have : (l.dropWhile pyIsSpace).head? = some c := by
      rw [← hr, List.head?_append]
      rw [pyStrip] at h
      rw [h]
      rfl
    exact head?_dropWhile pyIsSpace l c this
  · intro c h
    rw [pyStrip, dropTrailingWhile, List.getLast?_reverse] at h
    exact head?_dropWhile pyIsSpace _ c h

lemma dropWhile_of_head (p : Char → Bool) (l : Str)
    (h : ∀ c, l.head? = some c → p c = false) : l.dropWhile p = l := by
  cases l with
  | nil => rfl
  | cons a t =>
    rw [List.dropWhile_cons, if_neg]
    rw [h a rfl]
    simp

/-- A list with no leading and no trailing whitespace is fixed by `pyStrip`. -/
lemma pyStrip_fix {l : Str}
    (h1 : ∀ c, l.head? = some c → pyIsSpace c = false)
    (h2 : ∀ c, l.getLast? = some c → pyIsSpace c = false) :
    pyStrip l = l := by
  rw [pyStrip, dropWhile_of_head _ _ h1, dropTrailingWhile,
      dropWhile_of_head _ _ (by intro c hc; exact h2 c (by rwa [List.head?_reverse] at hc)),
      List.reverse_reverse]

lemma pyLowerStr_fix {s : Str} (h : ∀ c ∈ s, GoodChar c) :
    pyLowerStr s = s := by
  induction s with
  | nil => rfl
  | cons a t ih =>
    have ha : GoodChar a := h a (List.mem_cons_self _ _)
    have hfix : pyLowerChar a = a := by
      rw [pyLowerChar, if_neg]
      rcases ha with h' | h' | h'
      · omega
      · omega
      · subst h'; decide
    rw [pyLowerStr, List.map_cons, hfix]
    have := ih (fun c hc => h c (List.mem_cons_of_mem _ hc))
    rw [pyLowerStr] at this
    rw [this]

lemma replaceNonClass_fix {s : Str} (h : ∀ c ∈ s, GoodChar c) :
    replaceNonClass s = s := by
  induction s with
  | nil => rfl
  | cons a t ih =>
    have ha : GoodChar a := h a (List.mem_cons_self _ _)
    rw [replaceNonClass, List.map_cons, if_pos (good_keep ha)]
    have := ih (fun c hc => h c (List.mem_cons_of_mem _ hc))
    rw [replaceNonClass] at this
    rw [this]

lemma collapseAux_fix :
    ∀ s : Str, (∀ c ∈ s, GoodChar c) → NoAdjSpace s →
      collapseAux false s = s ∧
      ((∀ c, s.head? = some c → c ≠ ' ') → collapseAux true s = s) := by
  intro s
  induction s with
  | nil => intro _ _; exact ⟨rfl, fun _ => rfl⟩
  | cons a t ih =>
    intro hg hc
    have ha : GoodChar a := hg a (List.mem_cons_self _ _)
    have htg : ∀ c ∈ t, GoodChar c := fun c hc' => hg c (List.mem_cons_of_mem _ hc')
    have hchain := List.chain'_cons'.mp hc
    have iht := ih htg hchain.2
    by_cases haSp : a = ' '
    · subst haSp
      have htTrue : collapseAux true t = t := by
        refine iht.2 ?_
        intro c hcHead hcEq
        exact hchain.1 c hcHead ⟨rfl, hcEq⟩
      constructor
      · rw [collapseAux, if_pos (by decide), if_neg (by simp), htTrue]
      · intro hhead
        exact absurd rfl (hhead ' ' rfl)
    · have haSp' : pyIsSpace a = false := good_not_space ha haSp
      constructor
      · rw [collapseAux, if_neg (by simp [haSp']), iht.1]
      · intro _
        rw [collapseAux, if_neg (by simp [haSp']), iht.1]

lemma normalize_nil : normalize [] = [] := rfl

/-- Applying `normalize` twice strips the at-most-one boundary space that a
single application can leave behind. -/
lemma normalize_normalize_eq_strip (x : Str) :
    normalize (normalize x) = pyStrip (normalize x) := by
  by_cases hy : normalize x = []
  · rw [hy, normalize_nil]; rfl
  · have hg : ∀ c ∈ normalize x, GoodChar c := normalize_good
    have hch : NoAdjSpace (normalize x) := normalize_chain x
    have hgS : ∀ c ∈ pyStrip (normalize x), GoodChar c :=
      fun c hc => hg c (pyStrip_mem hc)
    have hchS : NoAdjSpace (pyStrip (normalize x)) := pyStrip_chain hch
    rw [normalize, if_neg hy, pyLowerStr_fix hg, replaceNonClass_fix hgS,
        (collapseAux_fix _ hgS hchS).1]

/-- The double application of `normalize` is a fixed point. -/
lemma normalize_strip_fix (x : Str) :
    normalize (pyStrip (normalize x)) = pyStrip (normalize x) := by
  set z := pyStrip (normalize x) with hz
  by_cases hzn : z = []
  · rw [hzn, normalize_nil]
  · have hg : ∀ c ∈ normalize x, GoodChar c := normalize_good
    have hgz : ∀ c ∈ z, GoodChar c := fun c hc => hg c (pyStrip_mem hc)
    have hchz : NoAdjSpace z := pyStrip_chain (normalize_chain x)
    have htr := pyStrip_trimmed (normalize x)
    have hfixz : pyStrip z = z := pyStrip_fix htr.1 htr.2
    rw [normalize, if_neg hzn, pyLowerStr_fix hgz, hfixz,
        replaceNonClass_fix hgz, (collapseAux_fix _ hgz hchz).1]

/-- C2 counterexample: `normalize` is not idempotent.  On `"a!"` the
exclamation mark is replaced by a space after the initial strip, so
`normalize "a!" = "a "`, while a second application strips that trailing
space and yields `"a"`. -/
theorem normalize_not_idempotent :
    normalize (normalize ('a' :: '!' :: [])) ≠ normalize ('a' :: '!' :: []) := by
  decide

/-- C2 amended: `normalize` is idempotent only up to a final strip: a second
application returns the strip of the first, and from the second application
onwards the result is a fixed point. -/
theorem normalize_idempotent_up_to_strip (x : Str) :
    normalize (normalize x) = pyStrip (normalize x) ∧
    normalize (normalize (normalize x)) = normalize (normalize x) := by
  refine ⟨normalize_normalize_eq_strip x, ?_⟩
  rw [normalize_normalize_eq_strip x, normalize_strip_fix x]

/-- C3 counterexample: `normalize` does not end with a trim.  On `"a!"` the
code returns `"a "` — different from the spec's trimmed pipeline and
carrying a trailing space. -/
theorem normalize_no_final_trim :
    normalize ('a' :: '!' :: []) ≠ specNormalize ('a' :: '!' :: []) ∧
    (normalize ('a' :: '!' :: [])).getLast? = some ' ' := by
  decide

/-- C3 amended: `normalize` is the spec's pipeline without the final trim:
the trimmed pipeline equals `pyStrip` of `normalize`; every output character
is a lowercase letter, a digit or a plain space; no two adjacent output
characters are spaces (so at most a single leading and a single trailing
space can remain); `None` and the empty string map to the empty string. -/
theorem normalize_pipeline_characterization (x : Str) :
    specNormalize x = pyStrip (normalize x) ∧
    (∀ c ∈ normalize x, GoodChar c) ∧
    NoAdjSpace (normalize x) ∧
    normalizeOpt none = [] ∧
    normalize [] = [] := by
  refine ⟨?_, normalize_good, normalize_chain x, rfl, rfl⟩
  by_cases hx : x = []
  · subst hx; rfl
  · rw [specNormalize, normalize, if_neg hx]

/-! ## Master data model (`modules/master_data.py`)

The reference dataset (`master_data.json`) and the alias dataset
(`aliases.json`) are external JSON files; they are embedded as parameters.
A record field that may be missing in the JSON (`rec.get(k) or ""`) is
embedded as a string that is empty in that case.  Python dicts used as
lookup tables are embedded as functions into `Option`. -/

structure IndianCompany where
  name : Str
  pan : Str
deriving DecidableEq

structure ForeignCompany where
  name : Str
deriving DecidableEq

structure BankRow where
  bank_name : Str
  bsr_code : Str
  branch : Str
deriving DecidableEq

structure NatureRec where
  invoice_nature : Str
  agreement_nature : Str
  service_category : Str
  purpose_code : Str
deriving DecidableEq

structure DtaaRec where
  country : Str
  article : Str
  rate : Option Str
deriving DecidableEq

/-- One entry of the party index: `{"party_name": ..., "rows": ...}`. -/
structure PartyBanks where
  party_name : Str
  rows : List BankRow
deriving DecidableEq

structure MasterData where
  indian_companies : List IndianCompany
  foreign_companies : List ForeignCompany
  banks_by_party : List (Str × List BankRow)
  nature_map : List NatureRec
  dtaa_rates : List DtaaRec
deriving DecidableEq

/-- Functional embedding of a Python dict keyed by normalized strings. -/
def dictSet {β : Type} (m : Str → Option β) (k : Str) (v : β) :
    Str → Option β :=
  fun q => if q = k then some v else m q

/-- Index construction where a later record overwrites an earlier one with
the same key (`idx[key] = rec`), inserting only non-empty keys. -/
def buildLast {α β : Type} (l : List α) (key : α → Str) (v : α → β) :
    Str → Option β :=
  l.foldl (fun m r => if key r = [] then m else dictSet m (key r) (v r))
    (fun _ => none)

/-- Index construction where the first record with a given key wins
(`if val and val not in idx: idx[val] = rec`). -/
def buildFirst {β : Type} (kvs : List (Str × β)) : Str → Option β :=
  kvs.foldl
    (fun m kv => if kv.1 = [] ∨ (m kv.1).isSome then m else dictSet m kv.1 kv.2)
    (fun _ => none)

structure MasterIndexes where
  indian : Str → Option IndianCompany
  foreignIdx : Str → Option ForeignCompany
  party : Str → Option PartyBanks
  nature : Str → Option NatureRec
  country : Str → Option DtaaRec

/-- The `(normalized key, record)` pairs fed to the nature index: each
record is offered under its `invoice_nature` and then its
`agreement_nature` key (`master_data.py:79-85`). -/
def natureKvs (m : MasterData) : List (Str × NatureRec) :=
  m.nature_map.flatMap
    (fun r => [(normalize r.invoice_nature, r), (normalize r.agreement_nature, r)])

/-- `_build_indexes` (`master_data.py:55-99`): indian, foreign and party use
plain overwriting assignment (last record wins); nature and country insert
only keys not already present (first record wins). -/
def _build_indexes (m : MasterData) : MasterIndexes where
  indian := buildLast m.indian_companies (fun r => normalize r.name) id
  foreignIdx := buildLast m.foreign_companies (fun r => normalize r.name) id
  party := buildLast m.banks_by_party (fun pr => normalize pr.1)
    (fun pr => ⟨pr.1, pr.2⟩)
  nature := buildFirst (natureKvs m)
  country := buildFirst (m.dtaa_rates.map (fun r => (normalize r.country, r)))

inductive Domain where
  | indian | foreign | party | nature | country
deriving DecidableEq

/-- The five alias tables of `aliases.json`, each a dict from raw text to
canonical text. -/
structure AliasTables where
  indian_company_aliases : Str → Option Str
  foreign_party_aliases : Str → Option Str
  party_bank_aliases : Str → Option Str
  nature_aliases : Str → Option Str
  country_aliases : Str → Option Str

def aliasMap (a : AliasTables) : Domain → (Str → Option Str)
  | .indian => a.indian_company_aliases
  | .foreign => a.foreign_party_aliases
  | .party => a.party_bank_aliases
  | .nature => a.nature_aliases
  | .country => a.country_aliases

/-- `resolve_name` (`master_data.py:107-123`): normalize, return early on an
empty canonical form, otherwise substitute through the domain's alias table
once, normalizing the alias value. -/
def resolve_name (a : AliasTables) (raw : Str) (domain : Domain) : Str :=
  let canonical := normalize raw
  if canonical = [] then []
  else
    match aliasMap a domain canonical with
    | some v => normalize v
    | none => canonical

def find_indian_company (m : MasterData) (a : AliasTables) (name : Str) :
    Option IndianCompany :=
  (_build_indexes m).indian (resolve_name a name .indian)

def find_foreign_company (m : MasterData) (a : AliasTables) (name : Str) :
    Option ForeignCompany :=
  (_build_indexes m).foreignIdx (resolve_name a name .foreign)

def find_party_banks (m : MasterData) (a : AliasTables) (party_name : Str) :
    List BankRow :=
  match (_build_indexes m).party (resolve_name a party_name .party) with
  | some rec => rec.rows
  | none => []

def find_nature_row (m : MasterData) (a : AliasTables) (nature_text : Str) :
    Option NatureRec :=
  (_build_indexes m).nature (resolve_name a nature_text .nature)

def find_dtaa (m : MasterData) (a : AliasTables) (country_text : Str) :
    Option DtaaRec :=
  (_build_indexes m).country (resolve_name a country_text .country)

lemma getLast?_cons_or {α : Type} :
    ∀ (l : List α) (a : α), (a :: l).getLast? = l.getLast?.or (some a)
  | [], a => by simp
  | b :: t, a => by
    rw [List.getLast?_cons_cons]
    cases h : (b :: t).getLast? with
    | none => rw [List.getLast?_eq_none_iff] at h; cases h
    | some x => simp

lemma buildLast_foldl {α β : Type} (key : α → Str) (v : α → β) :
    ∀ (l : List α) (m : Str → Option β) (k : Str), k ≠ [] →
      l.foldl (fun m r => if key r = [] then m else dictSet m (key r) (v r)) m k =
        (((l.filter (fun r => decide (key r = k))).getLast?).map v).or (m k) := by
  intro l
  induction l with
  | nil => intro m k _; simp
  | cons r t ih =>
    intro m k hk
    rw [List.foldl_cons, ih _ k hk, List.filter_cons]
    by_cases hrk : key r = k
    · subst hrk
      have hkr : key r ≠ [] := hk
      rw [if_pos (show decide (key r = key r) = true from by simp), getLast?_cons_or]
      have hstep : (if key r = [] then m else dictSet m (key r) (v r)) (key r)
          = some (v r) := by
        rw [if_neg hkr]
        simp [dictSet]
      rw [hstep]
      cases (t.filter (fun s => decide (key s = key r))).getLast? <;> simp
    · rw [if_neg (show ¬(decide (key r = k) = true) from by simp [hrk])]
      have hstep : (if key r = [] then m else dictSet m (key r) (v r)) k = m k := by
        by_cases hre : key r = []
        · rw [if_pos hre]
        · rw [if_neg hre]
          simp only [dictSet]
          exact if_neg (fun h => hrk h.symm)
      rw [hstep]

lemma buildLast_eq {α β : Type} (l : List α) (key : α → Str) (v : α → β)
    (k : Str) (hk : k ≠ []) :
    buildLast l key v k =
      ((l.filter (fun r => decide (key r = k))).getLast?).map v := by
  rw [buildLast, buildLast_foldl key v l _ k hk]
  cases ((l.filter (fun r => decide (key r = k))).getLast?).map v <;> simp

lemma buildLast_empty_key {α β : Type} (l : List α) (key : α → Str) (v : α → β) :
    buildLast l key v [] = none := by
  rw [buildLast]
  suffices h : ∀ m : Str → Option β, m [] = none →
      l.foldl (fun m r => if key r = [] then m else dictSet m (key r) (v r)) m [] = none by
    exact h _ rfl
  induction l with
  | nil => intro m hm; exact hm
  | cons r t ih =>
    intro m hm
    rw [List.foldl_cons]
    apply ih
    by_cases hre : key r = []
    · rw [if_pos hre]; exact hm
    · rw [if_neg hre, dictSet, if_neg (fun h => hre h.symm)]; exact hm

lemma buildFirst_foldl {β : Type} :
    ∀ (kvs : List (Str × β)) (m : Str → Option β) (k : Str), k ≠ [] →
      kvs.foldl
        (fun m kv => if kv.1 = [] ∨ (m kv.1).isSome then m else dictSet m kv.1 kv.2)
        m k =
      (m k).or ((kvs.find? (fun kv => decide (kv.1 = k))).map Prod.snd) := by
  intro kvs
  induction kvs with
  | nil => intro m k _; simp
  | cons kv t ih =>
    intro m k hk
    rw [List.foldl_cons, ih _ k hk]
    by_cases h1 : kv.1 = k
    · rw [List.find?_cons_of_pos _ (by simpa using h1)]
      subst h1
      have hkv : kv.1 ≠ [] := hk
      cases hm : m kv.1 with
      | some w =>
        rw [if_pos (Or.inr (show (some w).isSome = true from rfl))]
        rw [hm]
        simp
      | none =>
        rw [if_neg
          (show ¬(kv.1 = [] ∨ (none : Option β).isSome = true) from by simp [hkv])]
        rw [show dictSet m kv.1 kv.2 kv.1 = some kv.2 from by simp [dictSet]]
        simp
    · rw [List.find?_cons_of_neg _ (by simpa using h1)]
      have hstep : (if kv.1 = [] ∨ (m kv.1).isSome = true then m
          else dictSet m kv.1 kv.2) k = m k := by
        by_cases hc : kv.1 = [] ∨ (m kv.1).isSome = true
        · rw [if_pos hc]
        · rw [if_neg hc]
          simp only [dictSet]
          exact if_neg (fun h => h1 h.symm)
      rw [hstep]

lemma buildFirst_eq {β : Type} (kvs : List (Str × β)) (k : Str) (hk : k ≠ []) :
    buildFirst kvs k = (kvs.find? (fun kv => decide (kv.1 = k))).map Prod.snd := by
  rw [buildFirst, buildFirst_foldl kvs _ k hk]
  simp

lemma buildFirst_empty_key {β : Type} (kvs : List (Str × β)) :
    buildFirst kvs [] = none := by
  rw [buildFirst]
  suffices h : ∀ m : Str → Option β, m [] = none →
      kvs.foldl
        (fun m kv => if kv.1 = [] ∨ (m kv.1).isSome then m else dictSet m kv.1 kv.2)
        m [] = none by
    exact h _ rfl
  induction kvs with
  | nil => intro m hm; exact hm
  | cons kv t ih =>
    intro m hm
    rw [List.foldl_cons]
    apply ih
    by_cases hc : kv.1 = [] ∨ (m kv.1).isSome = true
    · rw [if_pos hc]; exact hm
    · rw [if_neg hc]
      simp only [dictSet]
      rw [if_neg]
      · exact hm
      · intro h
        exact hc (Or.inl h.symm)

def c4recA : DtaaRec := ⟨"India".toList, "12".toList, none⟩

def c4recB : DtaaRec := ⟨"INDIA".toList, "13".toList, none⟩

def c4master : MasterData := ⟨[], [], [], [], [c4recA, c4recB]⟩

/-- C4 counterexample: the country (DTAA) index keeps the FIRST record when
two reference records normalize to the same key, not the last one:
with records for "India" then "INDIA", the key "india" maps to the former. -/
theorem build_indexes_not_all_last_wins :
    normalize c4recA.country = normalize c4recB.country ∧
    (_build_indexes c4master).country (normalize c4recB.country) = some c4recA ∧
    (_build_indexes c4master).country (normalize c4recB.country) ≠ some c4recB := by
  decide

/-- C4 amended: on duplicate normalized keys the indian, foreign and party
tables keep the record inserted last, while the nature and country tables
keep the record inserted first (and within one nature record the
`invoice_nature` key is offered before the `agreement_nature` key). -/
theorem build_indexes_duplicate_key_policy (m : MasterData) (k : Str)
    (hk : k ≠ []) :
    (_build_indexes m).indian k =
      (m.indian_companies.filter (fun r => decide (normalize r.name = k))).getLast? ∧
    (_build_indexes m).foreignIdx k =
      (m.foreign_companies.filter (fun r => decide (normalize r.name = k))).getLast? ∧
    (_build_indexes m).party k =
      ((m.banks_by_party.filter (fun pr => decide (normalize pr.1 = k))).getLast?).map
        (fun pr => PartyBanks.mk pr.1 pr.2) ∧
    (_build_indexes m).nature k =
      ((natureKvs m).find? (fun kv => decide (kv.1 = k))).map Prod.snd ∧
    (_build_indexes m).country k =
      ((m.dtaa_rates.map (fun r => (normalize r.country, r))).find?
        (fun kv => decide (kv.1 = k))).map Prod.snd := by
  refine ⟨?_, ?_, ?_, ?_, ?_⟩
  · rw [show (_build_indexes m).indian
        = buildLast m.indian_companies (fun r => normalize r.name) id from rfl,
      buildLast_eq _ _ _ k hk]
    cases (m.indian_companies.filter (fun r => decide (normalize r.name = k))).getLast? <;> rfl
  · rw [show (_build_indexes m).foreignIdx
        = buildLast m.foreign_companies (fun r => normalize r.name) id from rfl,
      buildLast_eq _ _ _ k hk]
    cases (m.foreign_companies.filter (fun r => decide (normalize r.name = k))).getLast? <;> rfl
  · rw [show (_build_indexes m).party
        = buildLast m.banks_by_party (fun pr => normalize pr.1)
            (fun pr => PartyBanks.mk pr.1 pr.2) from rfl,
      buildLast_eq _ _ _ k hk]
  · rw [show (_build_indexes m).nature = buildFirst (natureKvs m) from rfl,
      buildFirst_eq _ k hk]
  · rw [show (_build_indexes m).country
        = buildFirst (m.dtaa_rates.map (fun r => (normalize r.country, r))) from rfl,
      buildFirst_eq _ k hk]

/-- Witness for C4 amended at a concrete dataset and key. -/
theorem build_indexes_duplicate_key_policy_witness :
    ("india".toList ≠ ([] : Str)) ∧
    (_build_indexes c4master).country ("india".toList) = some c4recA := by
  refine ⟨by decide, ?_⟩
  have h := build_indexes_duplicate_key_policy c4master ("india".toList) (by decide)
  rw [h.2.2.2.2]
  decide

def c8aliases : AliasTables :=
  ⟨fun k => if k = [] then some ("x".toList) else none,
   fun _ => none, fun _ => none, fun _ => none, fun _ => none⟩

/-- C8 counterexample: when the normalized input is the empty string,
`resolve_name` returns early and never consults the alias table, even when
the empty string is an alias key; the claimed equation with
`normalize(alias_value)` fails there. -/
theorem resolve_name_empty_key_counterexample :
    aliasMap c8aliases .indian (normalize []) = some ("x".toList) ∧
    resolve_name c8aliases [] .indian ≠ normalize ("x".toList) := by
  decide

/-- C8 amended: when the normalized input is empty, `resolve_name` returns
the empty string without consulting the alias table; otherwise it returns
the normalized input when that is not an alias key, and the normalized
alias value when it is — with no second alias lookup, even when the
substituted result is itself an alias key. -/
theorem resolve_name_single_hop (a : AliasTables) (raw : Str) (d : Domain) :
    (normalize raw = [] → resolve_name a raw d = []) ∧
    (normalize raw ≠ [] → aliasMap a d (normalize raw) = none →
      resolve_name a raw d = normalize raw) ∧
    (∀ v, normalize raw ≠ [] → aliasMap a d (normalize raw) = some v →
      resolve_name a raw d = normalize v) := by
  refine ⟨?_, ?_, ?_⟩
  · intro h
    rw [resolve_name]
    simp only [h]
    rfl
  · intro h hnone
    rw [resolve_name]
    simp only [if_neg h, hnone]
  · intro v h hsome
    rw [resolve_name]
    simp only [if_neg h, hsome]

def c8aliases2 : AliasTables :=
  ⟨fun _ => none, fun _ => none,
   fun k =>
     if k = "acme".toList then some ("ACME Ltd".toList)
     else if k = "acme ltd".toList then some ("zzz".toList)
     else none,
   fun _ => none, fun _ => none⟩

/-- Witness for C8 amended: the alias hop applies once; the result
"acme ltd" is itself an alias key mapping to "zzz", yet is returned
unresolved. -/
theorem resolve_name_single_hop_witness :
    resolve_name c8aliases2 ("Acme".toList) .party = normalize ("ACME Ltd".toList) ∧
    aliasMap c8aliases2 .party (normalize ("ACME Ltd".toList)) = some ("zzz".toList) := by
  refine ⟨?_, by decide⟩
  exact (resolve_name_single_hop c8aliases2 ("Acme".toList) .party).2.2
    ("ACME Ltd".toList) (by decide) (by decide)

def c10rec : IndianCompany := ⟨"!!!".toList, "AAAPA1111A".toList⟩

def c10master : MasterData := ⟨[c10rec], [], [], [], []⟩

def noAliases : AliasTables :=
  ⟨fun _ => none, fun _ => none, fun _ => none, fun _ => none, fun _ => none⟩

/-- C10 counterexample: a punctuation-only input does NOT normalize to the
empty string (the initial strip happens before punctuation is replaced by
spaces, so `normalize "!!!" = " "`), and such an input can even retrieve a
record, contradicting the claim that punctuation-only inputs are among
those whose resolution is empty and whose lookup returns not-found. -/
theorem punctuation_only_lookup_counterexample :
    normalize ("!!!".toList) ≠ [] ∧
    find_indian_company c10master noAliases ("!!!".toList) = some c10rec := by
  decide

/-- C10 amended: no Master Index table has the empty string as a key, and
every lookup whose input resolves (normalize + alias hop) to the empty
string misses: the four single-record finders return none and the party
lookup returns the empty list.  None, empty and whitespace-only inputs
resolve to the empty string; punctuation-only inputs do not (they normalize
to a single space). -/
theorem master_index_no_empty_key (m : MasterData) (a : AliasTables) (s : Str) :
    (_build_indexes m).indian [] = none ∧
    (_build_indexes m).foreignIdx [] = none ∧
    (_build_indexes m).party [] = none ∧
    (_build_indexes m).nature [] = none ∧
    (_build_indexes m).country [] = none ∧
    (resolve_name a s .indian = [] → find_indian_company m a s = none) ∧
    (resolve_name a s .foreign = [] → find_foreign_company m a s = none) ∧
    (resolve_name a s .party = [] → find_party_banks m a s = []) ∧
    (resolve_name a s .nature = [] → find_nature_row m a s = none) ∧
    (resolve_name a s .country = [] → find_dtaa m a s = none) := by
  have hi : (_build_indexes m).indian [] = none := buildLast_empty_key _ _ _
  have hf : (_build_indexes m).foreignIdx [] = none := buildLast_empty_key _ _ _
  have hp : (_build_indexes m).party [] = none := buildLast_empty_key _ _ _
  have hn : (_build_indexes m).nature [] = none := buildFirst_empty_key _
  have hc : (_build_indexes m).country [] = none := buildFirst_empty_key _
  refine ⟨hi, hf, hp, hn, hc, ?_, ?_, ?_, ?_, ?_⟩
  · intro h; rw [find_indian_company, h, hi]
  · intro h; rw [find_foreign_company, h, hf]
  · intro h; rw [find_party_banks, h, hp]
  · intro h; rw [find_nature_row, h, hn]
  · intro h; rw [find_dtaa, h, hc]

/-- Witness for C10 amended at a whitespace-only input. -/
theorem master_index_no_empty_key_witness :
    resolve_name noAliases ("  ".toList) Domain.indian = [] ∧
    find_indian_company c10master noAliases ("  ".toList) = none := by
  refine ⟨by decide, ?_⟩
  exact (master_index_no_empty_key c10master noAliases ("  ".toList)).2.2.2.2.2.1
    (by decide)

def sixStars : Str := '*' :: '*' :: '*' :: '*' :: '*' :: '*' :: []

/-- `mask_pan_for_log` (`master_data.py:189-193`): strip and upper-case;
return unchanged unless the length is exactly 10, in which case keep the
first two and last two characters around six asterisks
(`p[:2] + "******" + p[-2:]`, and `p[-2:] = drop 8` at length 10). -/
def mask_pan_for_log (pan : Str) : Str :=
  if (pyUpperStr (pyStrip pan)).length ≠ 10 then pyUpperStr (pyStrip pan)
  else (pyUpperStr (pyStrip pan)).take 2 ++ sixStars ++ (pyUpperStr (pyStrip pan)).drop 8

/-- C9: `mask_pan_for_log` reveals nothing about the middle six characters:
two inputs whose stripped upper-cased forms have length 10 and agree on the
first two and last two characters mask identically, to first-two ++ six
asterisks ++ last-two; any input whose canonical form is not of length 10
is returned as that canonical form unchanged. -/
theorem mask_pan_hides_middle (p q : Str)
    (hp : (pyUpperStr (pyStrip p)).length = 10)
    (hq : (pyUpperStr (pyStrip q)).length = 10)
    (h2 : (pyUpperStr (pyStrip p)).take 2 = (pyUpperStr (pyStrip q)).take 2)
    (h8 : (pyUpperStr (pyStrip p)).drop 8 = (pyUpperStr (pyStrip q)).drop 8) :
    mask_pan_for_log p = mask_pan_for_log q ∧
    mask_pan_for_log p =
      (pyUpperStr (pyStrip p)).take 2 ++ sixStars ++ (pyUpperStr (pyStrip p)).drop 8 ∧
    (∀ r : Str, (pyUpperStr (pyStrip r)).length ≠ 10 →
      mask_pan_for_log r = pyUpperStr (pyStrip r)) := by
  have hmp : mask_pan_for_log p =
      (pyUpperStr (pyStrip p)).take 2 ++ sixStars ++ (pyUpperStr (pyStrip p)).drop 8 := by
    rw [mask_pan_for_log, if_neg (by rw [hp]; simp)]
  have hmq : mask_pan_for_log q =
      (pyUpperStr (pyStrip q)).take 2 ++ sixStars ++ (pyUpperStr (pyStrip q)).drop 8 := by
    rw [mask_pan_for_log, if_neg (by rw [hq]; simp)]
  refine ⟨?_, hmp, ?_⟩
  · rw [hmp, hmq, h2, h8]
  · intro r hr
    rw [mask_pan_for_log, if_pos hr]

/-- Witness for C9: two PANs sharing only boundary characters mask to the
same string. -/
theorem mask_pan_hides_middle_witness :
    mask_pan_for_log (" abcde1234f ".toList) = mask_pan_for_log ("ABZZZZZ34F".toList) ∧
    mask_pan_for_log (" abcde1234f ".toList) = "AB******4F".toList := by
  have h := mask_pan_hides_middle (" abcde1234f ".toList) ("ABZZZZZ34F".toList)
    (by decide) (by decide) (by decide) (by decide)
  refine ⟨h.1, ?_⟩
  rw [h.2.1]
  decide

/-- Python's substring test `needle in hay` on strings. -/
def strContains : Str → Str → Bool
  | hay, needle =>
    needle.isPrefixOf hay ||
      match hay with
      | [] => false
      | _ :: t => strContains t needle

/-- A bank row matches when its normalized name equals, or contains as a
substring, the normalized query. -/
def bankRowMatches (nb : Str) (r : BankRow) : Bool :=
  decide (normalize r.bank_name = nb) || strContains (normalize r.bank_name) nb

/-- All bank rows of all parties, in the reference dataset's iteration
order. -/
def allBankRows (m : MasterData) : List BankRow :=
  m.banks_by_party.flatMap (fun pr => pr.2)

/-- Modelled from the spec: `find_bank_by_name` is imported from
`modules.master_data` by `form_ui.py:12` and exercised by
`tests/test_master_data_bank_lookup.py`, but its definition is not among
the provided sources.  Following spec §4.3: tier 1 searches the resolved
party's own bank rows for the first row whose normalized bank name equals
or contains the normalized `bank_name`; tier 2 falls back to all parties'
rows — exact normalized equality first, then substring containment — first
hit in iteration order; otherwise not-found. -/
def find_bank_by_name (m : MasterData) (a : AliasTables)
    (bank_name party_name : Str) : Option BankRow :=
  match (find_party_banks m a party_name).find? (bankRowMatches (normalize bank_name)) with
  | some r => some r
  | none =>
    match (allBankRows m).find?
        (fun r => decide (normalize r.bank_name = normalize bank_name)) with
    | some r => some r
    | none =>
      (allBankRows m).find?
        (fun r => strContains (normalize r.bank_name) (normalize bank_name))

/-- C5: the two-tier fallback of `find_bank_by_name`: the resolved party's
own rows are searched first (equality or containment, first match); on
failure all parties' rows are scanned, exact normalized equality before
substring containment, first hit in iteration order; only if all three
passes miss is `none` returned. -/
theorem find_bank_by_name_two_tier (m : MasterData) (a : AliasTables)
    (bank_name party_name : Str) :
    (∀ r, (find_party_banks m a party_name).find?
        (bankRowMatches (normalize bank_name)) = some r →
      find_bank_by_name m a bank_name party_name = some r) ∧
    ((find_party_banks m a party_name).find?
        (bankRowMatches (normalize bank_name)) = none →
      ∀ r, (allBankRows m).find?
          (fun r => decide (normalize r.bank_name = normalize bank_name)) = some r →
        find_bank_by_name m a bank_name party_name = some r) ∧
    ((find_party_banks m a party_name).find?
        (bankRowMatches (normalize bank_name)) = none →
      (allBankRows m).find?
          (fun r => decide (normalize r.bank_name = normalize bank_name)) = none →
      find_bank_by_name m a bank_name party_name =
        (allBankRows m).find?
          (fun r => strContains (normalize r.bank_name) (normalize bank_name))) := by
  refine ⟨?_, ?_, ?_⟩
  · intro r h1
    rw [find_bank_by_name, h1]
  · intro h1 r h2
    rw [find_bank_by_name, h1, h2]
  · intro h1 h2
    rw [find_bank_by_name, h1, h2]

def c5row : BankRow := ⟨"Deutsche Bank AG".toList, "7654321".toList, []⟩

def c5master : MasterData := ⟨[], [], [("Other".toList, [c5row])], [], []⟩

/-- Witness for C5: with no rows for the queried party, the global
substring fallback finds the row whose normalized name contains the
normalized query (mirrors `tests/test_master_data_bank_lookup.py`). -/
theorem find_bank_by_name_two_tier_witness :
    find_bank_by_name c5master noAliases ("Deutsche".toList) ("Unknown Party".toList)
      = some c5row := by
  have h := (find_bank_by_name_two_tier c5master noAliases
    ("Deutsche".toList) ("Unknown Party".toList)).2.2 (by decide) (by decide)
  rw [h]
  decide

/-! ## XML generation and parsing (`modules/xml_generator.py`,
`modules/xml_parser.py`)

A field dictionary is an association list looked up by first match (Python
dicts have unique keys, so only lookup order matters).  The template file
`templates/form15cb_template.xml` is not among the provided sources; per
spec §4.6/§4.7/§6 it is literal XML whose leaf element at each tag path of
the parser's tag table holds exactly the placeholder for that path's field
key.  A generated document is therefore abstracted as the list of
(tag path, rendered text content) pairs, and the `xml.etree` reading side
reports a node's text as absent when the rendered content is empty and
decodes the five standard entities. -/

abbrev Fields := List (Str × Str)

def lookupField (fs : Fields) (k : Str) : Option Str :=
  (fs.find? (fun kv => decide (kv.1 = k))).map Prod.snd

/-- The five mandatory keys of `validate_required_fields`
(`xml_generator.py:51-57`). -/
def mandatory_fields : List Str :=
  ["SWVersionNo".toList, "FormName".toList, "AssessmentYear".toList,
   "RemitterPAN".toList, "NameRemitter".toList]

/-- `field not in fields or not str(fields[field]).strip()`
(`xml_generator.py:61`). -/
def fieldMissing (fs : Fields) (f : Str) : Bool :=
  match lookupField fs f with
  | none => true
  | some v => decide (pyStrip v = [])

/-- The `missing` list built by `validate_required_fields`, in mandatory
order. -/
def missingFields (fs : Fields) : List Str :=
  mandatory_fields.filter (fieldMissing fs)

/-- Python `str.replace` with a single-character needle. -/
def pyReplaceChar (s : Str) (c : Char) (repl : Str) : Str :=
  s.flatMap (fun d => if d = c then repl else [d])

/-- `escape_xml` (`xml_generator.py:14-37`): sequentially replace `&` (first,
to avoid double escaping), `<`, `>`, `"`, `'` by their entities. -/
def escape_xml (v : Str) : Str :=
  pyReplaceChar (pyReplaceChar (pyReplaceChar (pyReplaceChar (pyReplaceChar
    v '&' ("&amp;".toList)) '<' ("&lt;".toList)) '>' ("&gt;".toList))
    '"' ("&quot;".toList)) '\'' ("&apos;".toList)

/-- `TAG_MAP` (`xml_parser.py:13-84`): namespaced tag paths to flat field
keys. -/
def TAG_MAP : List (Str × Str) :=
  [("Form:CreationInfo/Form:SWVersionNo", "SWVersionNo"),
   ("Form:CreationInfo/Form:SWCreatedBy", "SWCreatedBy"),
   ("Form:CreationInfo/Form:XMLCreatedBy", "XMLCreatedBy"),
   ("Form:CreationInfo/Form:XMLCreationDate", "XMLCreationDate"),
   ("Form:CreationInfo/Form:IntermediaryCity", "IntermediaryCity"),
   ("Form:Form_Details/Form:FormName", "FormName"),
   ("Form:Form_Details/Form:Description", "Description"),
   ("Form:Form_Details/Form:AssessmentYear", "AssessmentYear"),
   ("Form:Form_Details/Form:SchemaVer", "SchemaVer"),
   ("Form:Form_Details/Form:FormVer", "FormVer"),
   ("FORM15CB:RemitterDetails/FORM15CB:IorWe", "IorWe"),
   ("FORM15CB:RemitterDetails/FORM15CB:RemitterHonorific", "RemitterHonorific"),
   ("FORM15CB:RemitterDetails/FORM15CB:NameRemitter", "NameRemitter"),
   ("FORM15CB:RemitterDetails/FORM15CB:PAN", "RemitterPAN"),
   ("FORM15CB:RemitterDetails/FORM15CB:BeneficiaryHonorific", "BeneficiaryHonorific"),
   ("FORM15CB:RemitteeDetls/FORM15CB:NameRemittee", "NameRemittee"),
   ("FORM15CB:RemitteeDetls/FORM15CB:RemitteeAddrs/FORM15CB:TownCityDistrict", "RemitteeTownCityDistrict"),
   ("FORM15CB:RemitteeDetls/FORM15CB:RemitteeAddrs/FORM15CB:FlatDoorBuilding", "RemitteeFlatDoorBuilding"),
   ("FORM15CB:RemitteeDetls/FORM15CB:RemitteeAddrs/FORM15CB:AreaLocality", "RemitteeAreaLocality"),
   ("FORM15CB:RemitteeDetls/FORM15CB:RemitteeAddrs/FORM15CB:ZipCode", "RemitteeZipCode"),
   ("FORM15CB:RemitteeDetls/FORM15CB:RemitteeAddrs/Form:State", "RemitteeState"),
   ("FORM15CB:RemitteeDetls/FORM15CB:RemitteeAddrs/FORM15CB:Country", "RemitteeCountryCode"),
   ("FORM15CB:RemittanceDetails/FORM15CB:CountryRemMadeSecb", "CountryRemMadeSecb"),
   ("FORM15CB:RemittanceDetails/FORM15CB:CurrencySecbCode", "CurrencySecbCode"),
   ("FORM15CB:RemittanceDetails/FORM15CB:AmtPayForgnRem", "AmtPayForgnRem"),
   ("FORM15CB:RemittanceDetails/FORM15CB:AmtPayIndRem", "AmtPayIndRem"),
   ("FORM15CB:RemittanceDetails/FORM15CB:NameBankCode", "NameBankCode"),
   ("FORM15CB:RemittanceDetails/FORM15CB:BranchName", "BranchName"),
   ("FORM15CB:RemittanceDetails/FORM15CB:BsrCode", "BsrCode"),
   ("FORM15CB:RemittanceDetails/FORM15CB:PropDateRem", "PropDateRem"),
   ("FORM15CB:RemittanceDetails/FORM15CB:NatureRemCategory", "NatureRemCategory"),
   ("FORM15CB:RemittanceDetails/FORM15CB:RevPurCategory", "RevPurCategory"),
   ("FORM15CB:RemittanceDetails/FORM15CB:RevPurCode", "RevPurCode"),
   ("FORM15CB:RemittanceDetails/FORM15CB:TaxPayGrossSecb", "TaxPayGrossSecb"),
   ("FORM15CB:ItActDetails/FORM15CB:RemittanceCharIndia", "RemittanceCharIndia"),
   ("FORM15CB:ItActDetails/FORM15CB:SecRemCovered", "SecRemCovered"),
   ("FORM15CB:ItActDetails/FORM15CB:AmtIncChrgIt", "AmtIncChrgIt"),
   ("FORM15CB:ItActDetails/FORM15CB:TaxLiablIt", "TaxLiablIt"),
   ("FORM15CB:ItActDetails/FORM15CB:BasisDeterTax", "BasisDeterTax"),
   ("FORM15CB:DTAADetails/FORM15CB:TaxResidCert", "TaxResidCert"),
   ("FORM15CB:DTAADetails/FORM15CB:RelevantDtaa", "RelevantDtaa"),
   ("FORM15CB:DTAADetails/FORM15CB:RelevantArtDtaa", "RelevantArtDtaa"),
   ("FORM15CB:DTAADetails/FORM15CB:TaxIncDtaa", "TaxIncDtaa"),
   ("FORM15CB:DTAADetails/FORM15CB:TaxLiablDtaa", "TaxLiablDtaa"),
   ("FORM15CB:DTAADetails/FORM15CB:RemForRoyFlg", "RemForRoyFlg"),
   ("FORM15CB:DTAADetails/FORM15CB:ArtDtaa", "ArtDtaa"),
   ("FORM15CB:DTAADetails/FORM15CB:RateTdsADtaa", "RateTdsADtaa"),
   ("FORM15CB:DTAADetails/FORM15CB:RemAcctBusIncFlg", "RemAcctBusIncFlg"),
   ("FORM15CB:DTAADetails/FORM15CB:IncLiabIndiaFlg", "IncLiabIndiaFlg"),
   ("FORM15CB:DTAADetails/FORM15CB:RemOnCapGainFlg", "RemOnCapGainFlg"),
   ("FORM15CB:DTAADetails/FORM15CB:OtherRemDtaa", "OtherRemDtaa"),
   ("FORM15CB:DTAADetails/FORM15CB:TaxIndDtaaFlg", "TaxIndDtaaFlg"),
   ("FORM15CB:DTAADetails/FORM15CB:RelArtDetlDDtaa", "RelArtDetlDDtaa"),
   ("FORM15CB:TDSDetails/FORM15CB:AmtPayForgnTds", "AmtPayForgnTds"),
   ("FORM15CB:TDSDetails/FORM15CB:AmtPayIndianTds", "AmtPayIndianTds"),
   ("FORM15CB:TDSDetails/FORM15CB:RateTdsSecbFlg", "RateTdsSecbFlg"),
   ("FORM15CB:TDSDetails/FORM15CB:RateTdsSecB", "RateTdsSecB"),
   ("FORM15CB:TDSDetails/FORM15CB:ActlAmtTdsForgn", "ActlAmtTdsForgn"),
   ("FORM15CB:TDSDetails/FORM15CB:DednDateTds", "DednDateTds"),
   ("FORM15CB:AcctntDetls/FORM15CB:NameAcctnt", "NameAcctnt"),
   ("FORM15CB:AcctntDetls/FORM15CB:NameFirmAcctnt", "NameFirmAcctnt"),
   ("FORM15CB:AcctntDetls/FORM15CB:AcctntAddrs/FORM15CB:PremisesBuildingVillage", "PremisesBuildingVillage"),
   ("FORM15CB:AcctntDetls/FORM15CB:AcctntAddrs/FORM15CB:TownCityDistrict", "AcctntTownCityDistrict"),
   ("FORM15CB:AcctntDetls/FORM15CB:AcctntAddrs/FORM15CB:FlatDoorBuilding", "AcctntFlatDoorBuilding"),
   ("FORM15CB:AcctntDetls/FORM15CB:AcctntAddrs/FORM15CB:AreaLocality", "AcctntAreaLocality"),
   ("FORM15CB:AcctntDetls/FORM15CB:AcctntAddrs/FORM15CB:Pincode", "AcctntPincode"),
   ("FORM15CB:AcctntDetls/FORM15CB:AcctntAddrs/Form:State", "AcctntState"),
   ("FORM15CB:AcctntDetls/FORM15CB:AcctntAddrs/FORM15CB:RoadStreet", "AcctntRoadStreet"),
   ("FORM15CB:AcctntDetls/FORM15CB:AcctntAddrs/FORM15CB:Country", "AcctntCountryCode"),
   ("FORM15CB:AcctntDetls/FORM15CB:MembershipNumber", "MembershipNumber")
  ].map (fun pk => (pk.1.toList, pk.2.toList))

/-- The text content that ends up at a tag path's leaf: the escaped value
when the caller supplied the key, otherwise empty (the untouched
placeholder is deleted by the cleanup `re.sub(r"\{\{[^}]+\}\}", "", ...)`,
`xml_generator.py:129`). -/
def generatedText (fs : Fields) (key : Str) : Str :=
  match lookupField fs key with
  | some v => escape_xml v
  | none => []

/-- The generated document, abstracted as tag path ↦ rendered text. -/
def renderedDoc (fs : Fields) : List (Str × Str) :=
  TAG_MAP.map (fun pk => (pk.1, generatedText fs pk.2))

inductive GenResult where
  | validationError (missing : List Str)
  | ok (doc : List (Str × Str))
deriving DecidableEq

/-- `generate_xml` (`xml_generator.py:71-150`): validate the mandatory
fields first (fail closed, nothing written), then substitute every
placeholder with the escaped value and delete leftover placeholders.
Filename generation and filesystem errors are outside the model. -/
def generate_xml (fs : Fields) : GenResult :=
  if missingFields fs ≠ [] then .validationError (missingFields fs)
  else .ok (renderedDoc fs)

/-- Entity decoding done by the XML reader (`xml.etree`), inverting
`escape_xml` on its output. -/
def xmlUnescape : Str → Str
  | [] => []
  | c :: rest =>
    if c = '&' then
      if ("amp;".toList).isPrefixOf rest then '&' :: xmlUnescape (rest.drop 4)
      else if ("lt;".toList).isPrefixOf rest then '<' :: xmlUnescape (rest.drop 3)
      else if ("gt;".toList).isPrefixOf rest then '>' :: xmlUnescape (rest.drop 3)
      else if ("quot;".toList).isPrefixOf rest then '"' :: xmlUnescape (rest.drop 5)
      else if ("apos;".toList).isPrefixOf rest then '\'' :: xmlUnescape (rest.drop 5)
      else c :: xmlUnescape rest
    else c :: xmlUnescape rest
termination_by s => s.length
decreasing_by
  all_goals simp
  all_goals omega

/-- `root.find(xpath, NAMESPACES)` on the abstracted document. -/
def docFind (doc : List (Str × Str)) (path : Str) : Option Str :=
  (doc.find? (fun e => decide (e.1 = path))).map Prod.snd

/-- `node is not None and node.text is not None`: an element whose rendered
content is empty has null text. -/
def nodeText (doc : List (Str × Str)) (path : Str) : Option Str :=
  match docFind doc path with
  | some t => if t = [] then none else some t
  | none => none

/-- `parse_xml_to_fields` (`xml_parser.py:87-96`): walk `TAG_MAP`, include
`key ↦ trimmed text` for every tag path whose node exists with non-null
text, omit the key otherwise. -/
def parse_xml_to_fields (doc : List (Str × Str)) : Fields :=
  TAG_MAP.filterMap
    (fun pk => (nodeText doc pk.1).map (fun t => (pk.2, pyStrip (xmlUnescape t))))

def markupSpecial (c : Char) : Bool :=
  decide (c = '&' ∨ c = '<' ∨ c = '>' ∨ c = '"' ∨ c = '\'')

def lbrace : Char := Char.ofNat 123

/-- XML-safe plain text per C1: no markup-special character and no
placeholder-like double-brace token. -/
def xmlSafeB (v : Str) : Bool :=
  v.all (fun c => !markupSpecial c) && !strContains v (lbrace :: lbrace :: [])

/-- C6: when any mandatory key is absent or blank after trimming,
`generate_xml` fails with a validation error whose carried list names
exactly the missing-or-blank mandatory fields — all of them, in mandatory
order — and no document is produced. -/
theorem generate_xml_fail_closed (fs : Fields)
    (h : ∃ f ∈ mandatory_fields, fieldMissing fs f = true) :
    generate_xml fs = .validationError (missingFields fs) ∧
    (∀ f, f ∈ missingFields fs ↔ (f ∈ mandatory_fields ∧ fieldMissing fs f = true)) ∧
    (∀ doc, generate_xml fs ≠ .ok doc) := by
  obtain ⟨f, hf, hmiss⟩ := h
  have hne : missingFields fs ≠ [] :=
    List.ne_nil_of_mem (List.mem_filter.mpr ⟨hf, hmiss⟩)
  have hgen : generate_xml fs = .validationError (missingFields fs) := by
    rw [generate_xml, if_pos hne]
  refine ⟨hgen, ?_, ?_⟩
  · intro g
    exact List.mem_filter
  · intro doc hcontra
    rw [hgen] at hcontra
    cases hcontra

def c6fields : Fields :=
  [("SWVersionNo".toList, "1".toList),
   ("FormName".toList, ([] : Str)),
   ("AssessmentYear".toList, " ".toList)]

/-- Witness for C6: with `FormName` empty, `AssessmentYear` blank and
`RemitterPAN`/`NameRemitter` absent, all four offenders are reported. -/
theorem generate_xml_fail_closed_witness :
    generate_xml c6fields = GenResult.validationError
      ["FormName".toList, "AssessmentYear".toList,
       "RemitterPAN".toList, "NameRemitter".toList] := by
  have h := generate_xml_fail_closed c6fields
    ⟨"FormName".toList, by decide, by decide⟩
  rw [h.1]
  decide

lemma tagmap_paths_nodup : (TAG_MAP.map Prod.fst).Nodup := by decide

lemma tagmap_keys_nodup : (TAG_MAP.map Prod.snd).Nodup := by decide

/-- Looking a path up in a rendered association list finds the entry coming
from that path's own row, provided paths are distinct. -/
lemma docFind_map (g : Str × Str → Str) :
    ∀ (l : List (Str × Str)) (pk : Str × Str),
      (l.map Prod.fst).Nodup → pk ∈ l →
      docFind (l.map (fun q => (q.1, g q))) pk.1 = some (g pk) := by
  intro l
  induction l with
  | nil => intro pk _ hmem; cases hmem
  | cons q t ih =>
    intro pk hnd hmem
    rw [List.map_cons] at hnd
    have hnotin := (List.nodup_cons.mp hnd).1
    have hndt := (List.nodup_cons.mp hnd).2
    by_cases hq : q.1 = pk.1
    · have hpq : pk = q := by
        rcases List.mem_cons.mp hmem with h | h
        · exact h
        · exact absurd (hq ▸ List.mem_map.mpr ⟨pk, h, rfl⟩) hnotin
      subst hpq
      rw [List.map_cons]
      simp only [docFind]
      rw [List.find?_cons_of_pos _ (by simp)]
      rfl
    · have hpt : pk ∈ t := by
        rcases List.mem_cons.mp hmem with h | h
        · exact absurd (h ▸ rfl) hq
        · exact h
      rw [List.map_cons]
      simp only [docFind] at ih ⊢
      rw [List.find?_cons_of_neg _ (by simp [hq])]
      exact ih pk hndt hpt

lemma lookupField_filterMap_not_mem (val : Str × Str → Option Str)
    (out : Str × Str → Str → Str) :
    ∀ (t : List (Str × Str)) (k : Str), k ∉ t.map Prod.snd →
      lookupField
        (t.filterMap (fun q => (val q).map (fun w => (q.2, out q w)))) k = none := by
  intro t
  induction t with
  | nil => intro k _; rfl
  | cons q t ih =>
    intro k hk
    rw [List.map_cons] at hk
    have hk1 : q.2 ≠ k := fun h => hk (h ▸ List.mem_cons_self _ _)
    have hk2 : k ∉ t.map Prod.snd := fun h => hk (List.mem_cons_of_mem _ h)
    rw [List.filterMap_cons]
    cases hv : (val q).map (fun w => (q.2, out q w)) with
    | none => exact ih k hk2
    | some b =>
      obtain ⟨w, _, hb⟩ := Option.map_eq_some'.mp hv
      simp only [lookupField] at ih ⊢
      rw [List.find?_cons_of_neg _ (by simp [← hb, hk1])]
      exact ih k hk2

/-- Looking a key up in the parsed association list returns exactly that
key's own computed entry, provided keys are distinct. -/
lemma lookupField_keyed_filterMap (val : Str × Str → Option Str)
    (out : Str × Str → Str → Str) :
    ∀ (l : List (Str × Str)) (pk : Str × Str),
      (l.map Prod.snd).Nodup → pk ∈ l →
      lookupField
        (l.filterMap (fun q => (val q).map (fun w => (q.2, out q w)))) pk.2 =
        (val pk).map (out pk) := by
  intro l
  induction l with
  | nil => intro pk _ hmem; cases hmem
  | cons q t ih =>
    intro pk hnd hmem
    rw [List.map_cons] at hnd
    have hnotin := (List.nodup_cons.mp hnd).1
    have hndt := (List.nodup_cons.mp hnd).2
    by_cases hq : q.2 = pk.2
    · have hpq : pk = q := by
        rcases List.mem_cons.mp hmem with h | h
        · exact h
        · exact absurd (hq ▸ List.mem_map.mpr ⟨pk, h, rfl⟩) hnotin
      subst hpq
      rw [List.filterMap_cons]
      cases hv : (val pk).map (fun w => (pk.2, out pk w)) with
      | none =>
        rw [lookupField_filterMap_not_mem val out t pk.2 (hq ▸ hnotin)]
        rcases Option.map_eq_none'.mp hv with h
        rw [h]
        rfl
      | some b =>
        obtain ⟨w, hw, hb⟩ := Option.map_eq_some'.mp hv
        simp only [lookupField]
        rw [List.find?_cons_of_pos _ (by simp [← hb])]
        simp [← hb, hw]
    · have hpt : pk ∈ t := by
        rcases List.mem_cons.mp hmem with h | h
        · exact absurd (h ▸ rfl) hq
        · exact h
      rw [List.filterMap_cons]
      cases hv : (val q).map (fun w => (q.2, out q w)) with
      | none => exact ih pk hndt hpt
      | some b =>
        obtain ⟨w, _, hb⟩ := Option.map_eq_some'.mp hv
        simp only [lookupField] at ih ⊢
        rw [List.find?_cons_of_neg _ (by simp [← hb, hq])]
        exact ih pk hndt hpt

lemma pyReplaceChar_id {s : Str} {c : Char} {repl : Str}
    (h : ∀ d ∈ s, d ≠ c) : pyReplaceChar s c repl = s := by
  induction s with
  | nil => rfl
  | cons d t ih =>
    rw [pyReplaceChar, List.flatMap_cons,
      if_neg (h d (List.mem_cons_self _ _))]
    rw [pyReplaceChar] at ih
    rw [ih (fun e he => h e (List.mem_cons_of_mem _ he))]
    rfl

lemma escape_xml_id_of_safe {v : Str} (h : xmlSafeB v = true) :
    escape_xml v = v := by
  have hall : ∀ c ∈ v, markupSpecial c = false := by
    intro c hc
    rw [xmlSafeB] at h
    simp only [Bool.and_eq_true] at h
    have := h.1
    rw [List.all_eq_true] at this
    simpa using this c hc
  have hgen : ∀ (x : Char), x = '&' ∨ x = '<' ∨ x = '>' ∨ x = '"' ∨ x = '\'' →
      ∀ d ∈ v, d ≠ x := by
    intro x hx d hd he
    have := hall d hd
    subst he
    rw [markupSpecial] at this
    simp only [decide_eq_false_iff_not] at this
    exact this hx
  rw [escape_xml,
    pyReplaceChar_id (hgen '&' (Or.inl rfl)),
    pyReplaceChar_id (hgen '<' (Or.inr (Or.inl rfl))),
    pyReplaceChar_id (hgen '>' (Or.inr (Or.inr (Or.inl rfl)))),
    pyReplaceChar_id (hgen '"' (Or.inr (Or.inr (Or.inr (Or.inl rfl))))),
    pyReplaceChar_id (hgen '\'' (Or.inr (Or.inr (Or.inr (Or.inr rfl)))))]

lemma xmlUnescape_id_of_no_amp : ∀ {v : Str}, (∀ d ∈ v, d ≠ '&') →
    xmlUnescape v = v := by
  intro v
  induction v with
  | nil => intro _; rw [xmlUnescape]
  | cons c t ih =>
    intro h
    rw [xmlUnescape, if_neg (h c (List.mem_cons_self _ _))]
    rw [ih (fun d hd => h d (List.mem_cons_of_mem _ hd))]

lemma lookupField_mem {fs : Fields} {k v : Str}
    (h : lookupField fs k = some v) : ∃ kv ∈ fs, kv.2 = v := by
  rw [lookupField] at h
  obtain ⟨kv, hfind, hsnd⟩ := Option.map_eq_some'.mp h
  exact ⟨kv, List.mem_of_find?_eq_some hfind, hsnd⟩

/-- C1 amended: for XML-safe fields passing mandatory validation, parsing
the generated document restores, for every key in the parser's tag table,
exactly the trimmed value of every key the caller set to a non-empty
string; keys absent from `fields` stay absent, and keys set to the EMPTY
string are dropped by the parser (their placeholder is deleted, leaving an
empty element whose text is null), so they come back absent rather than as
an empty string. -/
theorem generate_parse_round_trip (fs : Fields)
    (hsafe : ∀ kv ∈ fs, xmlSafeB kv.2 = true)
    (hok : missingFields fs = []) :
    generate_xml fs = .ok (renderedDoc fs) ∧
    ∀ pk ∈ TAG_MAP,
      lookupField (parse_xml_to_fields (renderedDoc fs)) pk.2 =
        (lookupField fs pk.2).bind
          (fun v => if v = [] then none else some (pyStrip v)) := by
  constructor
  · rw [generate_xml, if_neg (by rw [hok]; simp)]
  · intro pk hmem
    have hdoc : docFind (renderedDoc fs) pk.1 = some (generatedText fs pk.2) :=
      docFind_map (fun q => generatedText fs q.2) TAG_MAP pk tagmap_paths_nodup hmem
    have hparse : lookupField (parse_xml_to_fields (renderedDoc fs)) pk.2
        = (nodeText (renderedDoc fs) pk.1).map (fun t => pyStrip (xmlUnescape t)) :=
      lookupField_keyed_filterMap
        (fun q => nodeText (renderedDoc fs) q.1)
        (fun _ t => pyStrip (xmlUnescape t))
        TAG_MAP pk tagmap_keys_nodup hmem
    have hnode : nodeText (renderedDoc fs) pk.1 =
        (if generatedText fs pk.2 = [] then none else some (generatedText fs pk.2)) := by
      simp only [nodeText]
      rw [hdoc]
    rw [hparse, hnode]
    cases hlook : lookupField fs pk.2 with
    | none =>
      have hgen : generatedText fs pk.2 = [] := by
        simp [generatedText, hlook]
      rw [hgen]
      simp
    | some v =>
      obtain ⟨kv, hkvmem, hkv2⟩ := lookupField_mem hlook
      have hsafev : xmlSafeB v = true := hkv2 ▸ hsafe kv hkvmem
      have hgen : generatedText fs pk.2 = v := by
        simp [generatedText, hlook, escape_xml_id_of_safe hsafev]
      have hnoamp : ∀ d ∈ v, d ≠ '&' := by
        intro d hd he
        have h1 : v.all (fun c => !markupSpecial c) = true := by
          rw [xmlSafeB] at hsafev
          simp only [Bool.and_eq_true] at hsafev
          exact hsafev.1
        rw [List.all_eq_true] at h1
        have h2 := h1 d hd
        subst he
        simp [markupSpecial] at h2
      rw [hgen]
      by_cases hv : v = []
      · subst hv
        simp
      · simp [hv, xmlUnescape_id_of_no_amp hnoamp]

def w1fields : Fields :=
  [("SWVersionNo".toList, "1".toList),
   ("FormName".toList, "FORM15CB".toList),
   ("AssessmentYear".toList, "2025".toList),
   ("RemitterPAN".toList, "ABCDE1234F".toList),
   ("NameRemitter".toList, "Acme India Pvt Ltd".toList)]

/-- Witness for C1 amended at a concrete valid field dictionary. -/
theorem generate_parse_round_trip_witness :
    lookupField (parse_xml_to_fields (renderedDoc w1fields)) ("NameRemitter".toList)
      = some ("Acme India Pvt Ltd".toList) := by
  have h := (generate_parse_round_trip w1fields (by decide) (by decide)).2
    ("FORM15CB:RemitterDetails/FORM15CB:NameRemitter".toList, "NameRemitter".toList)
    (by decide)
  exact h.trans (by decide)

def c1fields : Fields := w1fields ++ [("SWCreatedBy".toList, ([] : Str))]

/-- C1 counterexample: a field present with the EMPTY string as value is in
the tag table and is XML-safe, yet the parsed dictionary omits it instead
of restoring the (trimmed) empty string: the round trip is not exact on the
full tag-table subset. -/
theorem generate_parse_not_exact_on_empty_values :
    c1fields.all (fun kv => xmlSafeB kv.2) = true ∧
    missingFields c1fields = [] ∧
    "SWCreatedBy".toList ∈ TAG_MAP.map Prod.snd ∧
    lookupField c1fields ("SWCreatedBy".toList) = some [] ∧
    generate_xml c1fields = GenResult.ok (renderedDoc c1fields) ∧
    lookupField (parse_xml_to_fields (renderedDoc c1fields)) ("SWCreatedBy".toList) ≠
      (lookupField c1fields ("SWCreatedBy".toList)).map pyStrip := by
  decide

/-! ## Suggestion engine (`modules/master_data.py:196-361`) -/

def kNameRemitter : Str := "NameRemitter".toList
def kRemitterPAN : Str := "RemitterPAN".toList
def kNameRemittee : Str := "NameRemittee".toList
def kNameBankCode : Str := "NameBankCode".toList
def kBranchName : Str := "BranchName".toList
def kBsrCode : Str := "BsrCode".toList
def kNatureRemCategory : Str := "NatureRemCategory".toList
def kRevPurCategory : Str := "RevPurCategory".toList
def kRevPurCode : Str := "RevPurCode".toList
def kCountryRemMadeSecb : Str := "CountryRemMadeSecb".toList
def kRemitteeTownCityDistrict : Str := "RemitteeTownCityDistrict".toList
def kRelevantDtaa : Str := "RelevantDtaa".toList
def kRelevantArtDtaa : Str := "RelevantArtDtaa".toList
def kRateTdsADtaa : Str := "RateTdsADtaa".toList

structure RecEvent where
  lookup_domain : Str
  input : Str
  resolved : Str
  match_type : Str
  source : Str
deriving DecidableEq

/-- `classify_match` (`master_data.py:196-197`). -/
def classify_match (raw resolved : Str) : Str :=
  if normalize raw ≠ resolved then "alias_matched".toList else "matched".toList

def sNotFound : Str := "not_found".toList

/-- `extracted.get(key, "")`. -/
def getFieldD (fs : Fields) (k : Str) : Str := (lookupField fs k).getD []

/-- `re.sub(r"\D", "", s)`, ASCII digits. -/
def keepDigits (s : Str) : Str :=
  s.filter (fun c => decide (48 ≤ c.toNat ∧ c.toNat ≤ 57))

/-- `suggestions[key] = value` (keys are written at most once per run). -/
def insertS (fs : Fields) (k v : Str) : Fields := fs ++ [(k, v)]

/-- Remitter lookup step (`master_data.py:207-234`). -/
def step_remitter (m : MasterData) (a : AliasTables) (remitter_input : Str)
    (acc : Fields × List RecEvent) : Fields × List RecEvent :=
  match find_indian_company m a remitter_input with
  | some rec =>
    let remitter_name := pyStrip rec.name
    let remitter_pan := pyUpperStr (pyStrip rec.pan)
    let s1 := if remitter_name ≠ [] then insertS acc.1 kNameRemitter remitter_name
              else acc.1
    let s2 := if remitter_pan ≠ [] then insertS s1 kRemitterPAN remitter_pan else s1
    (s2,
      acc.2 ++ [⟨"indian".toList, remitter_input,
        if remitter_name ≠ [] then remitter_name else remitter_input,
        classify_match remitter_input (resolve_name a remitter_input .indian),
        "master.indian_companies".toList⟩])
  | none =>
    if remitter_input ≠ [] then
      (acc.1,
        acc.2 ++ [⟨"indian".toList, remitter_input, [], sNotFound,
          "master.indian_companies".toList⟩])
    else acc

/-- Remittee lookup step (`master_data.py:236-260`). -/
def step_remittee (m : MasterData) (a : AliasTables) (remittee_input : Str)
    (acc : Fields × List RecEvent) : Fields × List RecEvent :=
  match find_foreign_company m a remittee_input with
  | some rec =>
    let remittee_name := pyStrip rec.name
    let s1 := if remittee_name ≠ [] then insertS acc.1 kNameRemittee remittee_name
              else acc.1
    (s1,
      acc.2 ++ [⟨"foreign".toList, remittee_input,
        if remittee_name ≠ [] then remittee_name else remittee_input,
        classify_match remittee_input (resolve_name a remittee_input .foreign),
        "master.foreign_companies".toList⟩])
  | none =>
    if remittee_input ≠ [] then
      (acc.1,
        acc.2 ++ [⟨"foreign".toList, remittee_input, [], sNotFound,
          "master.foreign_companies".toList⟩])
    else acc

/-- Bank lookup step (`master_data.py:262-292`). -/
def step_bank (m : MasterData) (a : AliasTables) (party_seed : Str)
    (bank_code_lookup : Str → Option Str)
    (acc : Fields × List RecEvent) : Fields × List RecEvent :=
  match find_party_banks m a party_seed with
  | primary :: _ =>
    let bank_name := pyStrip primary.bank_name
    let bank_code := (bank_code_lookup (normalize bank_name)).getD bank_name
    let s1 := if bank_code ≠ [] then insertS acc.1 kNameBankCode bank_code else acc.1
    let s2 := if primary.branch ≠ [] then
                insertS s1 kBranchName (pyStrip primary.branch)
              else s1
    let s3 := if primary.bsr_code ≠ [] then
                insertS s2 kBsrCode (keepDigits primary.bsr_code)
              else s2
    (s3,
      acc.2 ++ [⟨"party".toList, party_seed, primary.bank_name,
        classify_match party_seed (resolve_name a party_seed .party),
        "master.banks_by_party".toList⟩])
  | [] =>
    if party_seed ≠ [] then
      (acc.1,
        acc.2 ++ [⟨"party".toList, party_seed, [], sNotFound,
          "master.banks_by_party".toList⟩])
    else acc

/-- Nature-of-remittance lookup step (`master_data.py:294-324`). -/
def step_nature (m : MasterData) (a : AliasTables) (nature_seed : Str)
    (acc : Fields × List RecEvent) : Fields × List RecEvent :=
  match find_nature_row m a nature_seed with
  | some row =>
    let agreement_nature := pyStrip row.agreement_nature
    let service_category := pyStrip row.service_category
    let purpose := pyStrip row.purpose_code
    let s1 := if agreement_nature ≠ [] then
                insertS acc.1 kNatureRemCategory agreement_nature
              else acc.1
    let s2 := if service_category ≠ [] then insertS s1 kRevPurCategory service_category
              else s1
    let s3 := if purpose ≠ [] then insertS s2 kRevPurCode purpose else s2
    (s3,
      acc.2 ++ [⟨"nature".toList, nature_seed,
        if agreement_nature ≠ [] then agreement_nature else nature_seed,
        classify_match nature_seed (resolve_name a nature_seed .nature),
        "master.nature_map".toList⟩])
  | none =>
    if nature_seed ≠ [] then
      (acc.1,
        acc.2 ++ [⟨"nature".toList, nature_seed, [], sNotFound,
          "master.nature_map".toList⟩])
    else acc

/-- Treaty-rate lookup step (`master_data.py:326-359`).  The float
formatting `str(round(float(rate)*100, 2)).rstrip("0").rstrip(".")` inside
the try/except is abstracted by the parameter `rateFmt` (`none` models the
silenced exception); no claim depends on that value. -/
def step_country (m : MasterData) (a : AliasTables) (country_seed : Str)
    (rateFmt : Str → Option Str)
    (acc : Fields × List RecEvent) : Fields × List RecEvent :=
  match find_dtaa m a country_seed with
  | some d =>
    let country := pyStrip d.country
    let article := pyStrip d.article
    let s1 := if country ≠ [] then insertS acc.1 kRelevantDtaa country else acc.1
    let s2 := if article ≠ [] then insertS s1 kRelevantArtDtaa article else s1
    let s3 := match d.rate with
              | some r =>
                match rateFmt r with
                | some out => insertS s2 kRateTdsADtaa out
                | none => s2
              | none => s2
    (s3,
      acc.2 ++ [⟨"country".toList, country_seed,
        if country ≠ [] then country else country_seed,
        classify_match country_seed (resolve_name a country_seed .country),
        "master.dtaa_rates".toList⟩])
  | none =>
    if country_seed ≠ [] then
      (acc.1,
        acc.2 ++ [⟨"country".toList, country_seed, [], sNotFound,
          "master.dtaa_rates".toList⟩])
    else acc

/-- The state after the first two steps; the bank step's seed reads the
`NameRemitter` suggestion from it. -/
def suggestAfterRemittee (m : MasterData) (a : AliasTables) (extracted : Fields) :
    Fields × List RecEvent :=
  step_remittee m a (getFieldD extracted kNameRemittee)
    (step_remitter m a (getFieldD extracted kNameRemitter) ([], []))

/-- `suggestions.get("NameRemitter") or extracted.get("NameRemitter", "")`
(`master_data.py:262`). -/
def party_seed_def (m : MasterData) (a : AliasTables) (extracted : Fields) : Str :=
  let pv := (lookupField (suggestAfterRemittee m a extracted).1 kNameRemitter).getD []
  if pv ≠ [] then pv else getFieldD extracted kNameRemitter

/-- `extracted.get("CountryRemMadeSecb") or extracted.get("RemitteeTownCityDistrict") or ""`
(`master_data.py:326`). -/
def country_seed_def (extracted : Fields) : Str :=
  let c1 := getFieldD extracted kCountryRemMadeSecb
  if c1 ≠ [] then c1 else getFieldD extracted kRemitteeTownCityDistrict

/-- `suggest_from_master` (`master_data.py:200-361`): the five lookup steps
run sequentially in the fixed order indian, foreign, party, nature,
country. -/
def suggest_from_master (m : MasterData) (a : AliasTables) (extracted : Fields)
    (bank_code_lookup : Str → Option Str) (rateFmt : Str → Option Str) :
    Fields × List RecEvent :=
  step_country m a (country_seed_def extracted) rateFmt
    (step_nature m a (getFieldD extracted kNatureRemCategory)
      (step_bank m a (party_seed_def m a extracted) bank_code_lookup
        (suggestAfterRemittee m a extracted)))

lemma resolve_name_nil (a : AliasTables) (d : Domain) :
    resolve_name a [] d = [] := rfl

lemma find_indian_company_nil (m : MasterData) (a : AliasTables) :
    find_indian_company m a [] = none := by
  rw [find_indian_company, resolve_name_nil]
  exact buildLast_empty_key _ _ _

lemma find_foreign_company_nil (m : MasterData) (a : AliasTables) :
    find_foreign_company m a [] = none := by
  rw [find_foreign_company, resolve_name_nil]
  exact buildLast_empty_key _ _ _

lemma find_party_banks_nil (m : MasterData) (a : AliasTables) :
    find_party_banks m a [] = [] := by
  have h : (_build_indexes m).party (resolve_name a [] .party) = none := by
    rw [resolve_name_nil]
    exact buildLast_empty_key _ _ _
  simp only [find_party_banks]
  rw [h]

lemma find_nature_row_nil (m : MasterData) (a : AliasTables) :
    find_nature_row m a [] = none := by
  rw [find_nature_row, resolve_name_nil]
  exact buildFirst_empty_key _

lemma find_dtaa_nil (m : MasterData) (a : AliasTables) :
    find_dtaa m a [] = none := by
  rw [find_dtaa, resolve_name_nil]
  exact buildFirst_empty_key _

def eventTriples (evs : List RecEvent) : List (Str × Str × Str) :=
  evs.map (fun e => (e.lookup_domain, e.input, e.match_type))

/-- The event shape the spec describes for one lookup step (claim-side
definition): no event on an empty seed; otherwise one event whose
match type is `alias_matched`/`matched` on a hit depending on whether the
alias hop changed the key, and `not_found` on a miss. -/
def stepTriple (dom seed : Str) (hit : Bool) (resolvedKey : Str) :
    List (Str × Str × Str) :=
  if seed = [] then []
  else [(dom, seed,
    if hit then
      (if normalize seed ≠ resolvedKey then "alias_matched".toList
       else "matched".toList)
    else sNotFound)]

/-- The full audit trail the spec describes (claim-side definition):
five steps in the fixed order indian, foreign, party, nature, country. -/
def expectedEventTriples (m : MasterData) (a : AliasTables) (extracted : Fields) :
    List (Str × Str × Str) :=
  stepTriple "indian".toList (getFieldD extracted kNameRemitter)
    (find_indian_company m a (getFieldD extracted kNameRemitter)).isSome
    (resolve_name a (getFieldD extracted kNameRemitter) .indian) ++
  stepTriple "foreign".toList (getFieldD extracted kNameRemittee)
    (find_foreign_company m a (getFieldD extracted kNameRemittee)).isSome
    (resolve_name a (getFieldD extracted kNameRemittee) .foreign) ++
  stepTriple "party".toList (party_seed_def m a extracted)
    (!(find_party_banks m a (party_seed_def m a extracted)).isEmpty)
    (resolve_name a (party_seed_def m a extracted) .party) ++
  stepTriple "nature".toList (getFieldD extracted kNatureRemCategory)
    (find_nature_row m a (getFieldD extracted kNatureRemCategory)).isSome
    (resolve_name a (getFieldD extracted kNatureRemCategory) .nature) ++
  stepTriple "country".toList (country_seed_def extracted)
    (find_dtaa m a (country_seed_def extracted)).isSome
    (resolve_name a (country_seed_def extracted) .country)

lemma step_remitter_triples (m : MasterData) (a : AliasTables) (input : Str)
    (acc : Fields × List RecEvent) :
    eventTriples (step_remitter m a input acc).2 =
      eventTriples acc.2 ++
        stepTriple "indian".toList input
          (find_indian_company m a input).isSome
          (resolve_name a input .indian) := by
  rw [step_remitter]
  cases hfind : find_indian_company m a input with
  | some rec =>
    have hinput : input ≠ [] := by
      intro h
      rw [h, find_indian_company_nil] at hfind
      cases hfind
    rw [stepTriple, if_neg hinput]
    simp [eventTriples, classify_match]
  | none =>
    by_cases hinput : input = []
    · subst hinput
      rw [stepTriple, if_pos rfl]
      simp
    · rw [stepTriple, if_neg hinput, if_pos hinput]
      simp [eventTriples, sNotFound]

lemma step_remittee_triples (m : MasterData) (a : AliasTables) (input : Str)
    (acc : Fields × List RecEvent) :
    eventTriples (step_remittee m a input acc).2 =
      eventTriples acc.2 ++
        stepTriple "foreign".toList input
          (find_foreign_company m a input).isSome
          (resolve_name a input .foreign) := by
  rw [step_remittee]
  cases hfind : find_foreign_company m a input with
  | some rec =>
    have hinput : input ≠ [] := by
      intro h
      rw [h, find_foreign_company_nil] at hfind
      cases hfind
    rw [stepTriple, if_neg hinput]
    simp [eventTriples, classify_match]
  | none =>
    by_cases hinput : input = []
    · subst hinput
      rw [stepTriple, if_pos rfl]
      simp
    · rw [stepTriple, if_neg hinput, if_pos hinput]
      simp [eventTriples, sNotFound]

lemma step_bank_triples (m : MasterData) (a : AliasTables) (seed : Str)
    (bcl : Str → Option Str) (acc : Fields × List RecEvent) :
    eventTriples (step_bank m a seed bcl acc).2 =
      eventTriples acc.2 ++
        stepTriple "party".toList seed
          (!(find_party_banks m a seed).isEmpty)
          (resolve_name a seed .party) := by
  rw [step_bank]
  cases hfind : find_party_banks m a seed with
  | cons primary rest =>
    have hseed : seed ≠ [] := by
      intro h
      rw [h, find_party_banks_nil] at hfind
      cases hfind
    rw [stepTriple, if_neg hseed]
    simp [eventTriples, classify_match, hfind]
  | nil =>
    by_cases hseed : seed = []
    · subst hseed
      rw [stepTriple, if_pos rfl]
      simp
    · rw [stepTriple, if_neg hseed, if_pos hseed]
      simp [eventTriples, sNotFound, hfind]

lemma step_nature_triples (m : MasterData) (a : AliasTables) (seed : Str)
    (acc : Fields × List RecEvent) :
    eventTriples (step_nature m a seed acc).2 =
      eventTriples acc.2 ++
        stepTriple "nature".toList seed
          (find_nature_row m a seed).isSome
          (resolve_name a seed .nature) := by
  rw [step_nature]
  cases hfind : find_nature_row m a seed with
  | some row =>
    have hseed : seed ≠ [] := by
      intro h
      rw [h, find_nature_row_nil] at hfind
      cases hfind
    rw [stepTriple, if_neg hseed]
    simp [eventTriples, classify_match]
  | none =>
    by_cases hseed : seed = []
    · subst hseed
      rw [stepTriple, if_pos rfl]
      simp
    · rw [stepTriple, if_neg hseed, if_pos hseed]
      simp [eventTriples, sNotFound]

lemma step_country_triples (m : MasterData) (a : AliasTables) (seed : Str)
    (rateFmt : Str → Option Str) (acc : Fields × List RecEvent) :
    eventTriples (step_country m a seed rateFmt acc).2 =
      eventTriples acc.2 ++
        stepTriple "country".toList seed
          (find_dtaa m a seed).isSome
          (resolve_name a seed .country) := by
  rw [step_country]
  cases hfind : find_dtaa m a seed with
  | some d =>
    have hseed : seed ≠ [] := by
      intro h
      rw [h, find_dtaa_nil] at hfind
      cases hfind
    rw [stepTriple, if_neg hseed]
    simp [eventTriples, classify_match]
  | none =>
    by_cases hseed : seed = []
    · subst hseed
      rw [stepTriple, if_pos rfl]
      simp
    · rw [stepTriple, if_neg hseed, if_pos hseed]
      simp [eventTriples, sNotFound]

lemma stepTriple_length (dom seed : Str) (hit : Bool) (rk : Str) :
    (stepTriple dom seed hit rk).length ≤ 1 := by
  rw [stepTriple]
  split <;> simp

def c7aliases : AliasTables :=
  ⟨fun k => if k = "zzz".toList then some ("qqq".toList) else none,
   fun _ => none, fun _ => none, fun _ => none, fun _ => none⟩

def emptyMaster : MasterData := ⟨[], [], [], [], []⟩

/-- C7 counterexample: on a MISS whose alias hop did change the resolved
key (here `zzz → qqq`, with no matching record), the emitted event has
match type `not_found`, not `alias_matched` as the claim's first clause
demands for every alias-changed resolution. -/
theorem suggest_alias_changed_miss_counterexample :
    resolve_name c7aliases ("zzz".toList) .indian ≠ normalize ("zzz".toList) ∧
    ((suggest_from_master emptyMaster c7aliases [(kNameRemitter, "zzz".toList)]
        (fun _ => none) (fun _ => none)).2).map
      (fun e => (e.lookup_domain, e.input, e.match_type)) =
      [("indian".toList, "zzz".toList, "not_found".toList),
       ("party".toList, "zzz".toList, "not_found".toList)] ∧
    "not_found".toList ≠ "alias_matched".toList := by
  decide

/-- C7 amended: each of the five lookup steps, in the fixed order indian,
foreign, party, nature, country, emits exactly one event when its seed is
non-empty and none when it is empty — so at most five events in total; on a
HIT the match type is `alias_matched` when the alias hop changed the
resolved key and `matched` otherwise, while on a miss it is `not_found`
even when an alias changed the key. -/
theorem suggest_events_characterization (m : MasterData) (a : AliasTables)
    (extracted : Fields) (bank_code_lookup : Str → Option Str)
    (rateFmt : Str → Option Str) :
    eventTriples (suggest_from_master m a extracted bank_code_lookup rateFmt).2 =
      expectedEventTriples m a extracted ∧
    (suggest_from_master m a extracted bank_code_lookup rateFmt).2.length ≤ 5 := by
  have h1 : eventTriples
      (suggest_from_master m a extracted bank_code_lookup rateFmt).2 =
      expectedEventTriples m a extracted := by
    rw [suggest_from_master, step_country_triples, step_nature_triples,
      step_bank_triples, suggestAfterRemittee, step_remittee_triples,
      step_remitter_triples]
    rw [expectedEventTriples]
    simp only [eventTriples, List.map_nil, List.nil_append, List.append_assoc]
  refine ⟨h1, ?_⟩
  have hlen : (suggest_from_master m a extracted bank_code_lookup rateFmt).2.length
      = (expectedEventTriples m a extracted).length := by
    have := congrArg List.length h1
    rwa [eventTriples, List.length_map] at this
  rw [hlen, expectedEventTriples]
  have l1 := stepTriple_length "indian".toList (getFieldD extracted kNameRemitter)
    (find_indian_company m a (getFieldD extracted kNameRemitter)).isSome
    (resolve_name a (getFieldD extracted kNameRemitter) .indian)
  have l2 := stepTriple_length "foreign".toList (getFieldD extracted kNameRemittee)
    (find_foreign_company m a (getFieldD extracted kNameRemittee)).isSome
    (resolve_name a (getFieldD extracted kNameRemittee) .foreign)
  have l3 := stepTriple_length "party".toList (party_seed_def m a extracted)
    (!(find_party_banks m a (party_seed_def m a extracted)).isEmpty)
    (resolve_name a (party_seed_def m a extracted) .party)
  have l4 := stepTriple_length "nature".toList (getFieldD extracted kNatureRemCategory)
    (find_nature_row m a (getFieldD extracted kNatureRemCategory)).isSome
    (resolve_name a (getFieldD extracted kNatureRemCategory) .nature)
  have l5 := stepTriple_length "country".toList (country_seed_def extracted)
    (find_dtaa m a (country_seed_def extracted)).isSome
    (resolve_name a (country_seed_def extracted) .country)
  simp only [List.length_append]
  omega

end Form15CB
